import Mathlib

/-!
# Verification of OpenCLRayTracer kernel utilities

A shallow embedding, over exact rational arithmetic, of the kernel-side
utility functions of the OpenCLRayTracer repository:

* `Include/CLData/Primitives/AABB.h` — triangle AABB construction, the
  ray/box slab test, point containment, and the separating-axis
  triangle/box test;
* `Include/CLData/Primitives/Triangle.h` — Möller–Trumbore ray/triangle
  intersection;
* `Include/CLData/Transform.h` — quaternion normalization;
* `Include/CLData/AccelerationStructs/BVH.h` — radix-tree node
  construction and BVH traversal;
* `Include/CLData/AccelerationStructs/TwoLevelGrid.h` — cell counting and
  pair-writing for the two-level grid;
* `src/CLRayTracerEngine/BitonicSort.cpp` — kernel selection and launch
  geometry of the bitonic sort driver;
* `src/CLRayTracerEngine/PrefixSum.cpp` — precondition checks of the
  prefix-sum driver.

`float` values are modelled by ℚ (the claims under study are about control
flow and exact algebraic relations, not rounding), 32-bit unsigned values
by ℕ.  The two operations that leave ℚ — `sqrt` and `normalize` — are kept
abstract as function parameters of the definitions that use them; device
buffers become functions `ℕ → α` updated pointwise; the byte-packed scene
buffer is abstracted by a vertex-fetch function `ℕ → Vec3 × Vec3 × Vec3`
(its parser is separate functionality, not under verification here).
-/

namespace OpenCLRT

/-- `UINT_MAX`, the 32-bit unsigned sentinel used as null index. -/
def UINT_MAX : ℕ := 4294967295

/-- `FLT_EPSILON` = 2⁻²³, as an exact rational. -/
def FLT_EPSILON : ℚ := 1 / 2 ^ 23

/-- `FLT_MAX` = (2²⁴ − 1)·2¹⁰⁴, as an exact rational. -/
def FLT_MAX : ℚ := (2 ^ 24 - 1) * 2 ^ 104

/-- `FLT_MIN` = 2⁻¹²⁶ (smallest positive normal float), as an exact rational. -/
def FLT_MIN : ℚ := 1 / 2 ^ 126

/-- A 3-wide float vector (`CL_FLOAT3`). -/
structure Vec3 where
  x : ℚ
  y : ℚ
  z : ℚ
  deriving DecidableEq

/-- A 4-wide float vector (`CL_FLOAT4`). -/
structure Vec4 where
  x : ℚ
  y : ℚ
  z : ℚ
  w : ℚ
  deriving DecidableEq

/-- Componentwise minimum, `min3` of CLPortability.h. -/
def min3 (a b : Vec3) : Vec3 := ⟨min a.x b.x, min a.y b.y, min a.z b.z⟩

/-- Componentwise maximum, `max3` of CLPortability.h. -/
def max3 (a b : Vec3) : Vec3 := ⟨max a.x b.x, max a.y b.y, max a.z b.z⟩

/-- Componentwise subtraction, `operator-` on `CL_FLOAT3`. -/
def sub3 (a b : Vec3) : Vec3 := ⟨a.x - b.x, a.y - b.y, a.z - b.z⟩

/-- Componentwise addition, `operator+` on `CL_FLOAT3`. -/
def add3 (a b : Vec3) : Vec3 := ⟨a.x + b.x, a.y + b.y, a.z + b.z⟩

/-- Componentwise division, `operator/` on `CL_FLOAT3`. -/
def div3 (a b : Vec3) : Vec3 := ⟨a.x / b.x, a.y / b.y, a.z / b.z⟩

/-- Scalar addition to every lane, `operator+(CL_FLOAT3, float)`. -/
def addScalar3 (a : Vec3) (s : ℚ) : Vec3 := ⟨a.x + s, a.y + s, a.z + s⟩

/-- Componentwise floor, `floor3` of CLPortability.h. -/
def floor3 (v : Vec3) : Vec3 := ⟨(⌊v.x⌋ : ℚ), (⌊v.y⌋ : ℚ), (⌊v.z⌋ : ℚ)⟩

/-- Cross product, `cross` of CLPortability.h. -/
def cross (a b : Vec3) : Vec3 :=
  ⟨a.y * b.z - a.z * b.y, a.z * b.x - a.x * b.z, a.x * b.y - a.y * b.x⟩

/-- Dot product, `dot` of CLPortability.h. -/
def dot (a b : Vec3) : ℚ := a.x * b.x + a.y * b.y + a.z * b.z

/-- `combineToVector(CL_FLOAT3, CL_FLOAT)` of CLPortability.h. -/
def combineToVector4 (a : Vec3) (b : ℚ) : Vec4 := ⟨a.x, a.y, a.z, b⟩

/-!
## AABB.h: `calculateTriangleAABB`  (claim C8)
-/

/-- Axis-aligned box: `bounds[0]` (min) and `bounds[1]` (max); the `w` lane
of `bounds[0]` doubles as the BVH node-type tag. -/
structure AABB where
  bounds0 : Vec4
  bounds1 : Vec4
  deriving DecidableEq

/-- `calculateTriangleAABB` of AABB.h, lines 61–79: componentwise min/max of
the three vertices, then inflation by `FLT_EPSILON` on each side of every
axis whose raw extent is below `FLT_EPSILON`.  The flat flags are the
`CL_UINT` 0/1 values of the comparisons, used as multiplicands. -/
def calculateTriangleAABB (v1 v2 v3 : Vec3) : AABB :=
  let b0 := combineToVector4 (min3 (min3 v1 v2) v3) 0
  let b1 := combineToVector4 (max3 (max3 v1 v2) v3) 0
  let xFlat : ℚ := if b1.x - b0.x < FLT_EPSILON then 1 else 0
  let yFlat : ℚ := if b1.y - b0.y < FLT_EPSILON then 1 else 0
  let zFlat : ℚ := if b1.z - b0.z < FLT_EPSILON then 1 else 0
  { bounds0 := ⟨b0.x - xFlat * FLT_EPSILON, b0.y - yFlat * FLT_EPSILON,
                b0.z - zFlat * FLT_EPSILON, b0.w⟩,
    bounds1 := ⟨b1.x + xFlat * FLT_EPSILON, b1.y + yFlat * FLT_EPSILON,
                b1.z + zFlat * FLT_EPSILON, b1.w⟩ }

theorem min3_le_max3 (a b c : ℚ) : min (min a b) c ≤ max (max a b) c :=
  le_trans (min_le_right _ _) (le_max_right _ _)

/-- C8: the box returned by `calculateTriangleAABB` has strictly positive
extent in every axis, and any axis whose raw min/max extent is below
`FLT_EPSILON` is inflated by `FLT_EPSILON` on each side. -/
theorem claim_C8_triangle_aabb_never_degenerate (v1 v2 v3 : Vec3) :
    (0 < (calculateTriangleAABB v1 v2 v3).bounds1.x - (calculateTriangleAABB v1 v2 v3).bounds0.x ∧
     0 < (calculateTriangleAABB v1 v2 v3).bounds1.y - (calculateTriangleAABB v1 v2 v3).bounds0.y ∧
     0 < (calculateTriangleAABB v1 v2 v3).bounds1.z - (calculateTriangleAABB v1 v2 v3).bounds0.z) ∧
    ((max (max v1.x v2.x) v3.x - min (min v1.x v2.x) v3.x < FLT_EPSILON →
       (calculateTriangleAABB v1 v2 v3).bounds0.x = min (min v1.x v2.x) v3.x - FLT_EPSILON ∧
       (calculateTriangleAABB v1 v2 v3).bounds1.x = max (max v1.x v2.x) v3.x + FLT_EPSILON) ∧
     (max (max v1.y v2.y) v3.y - min (min v1.y v2.y) v3.y < FLT_EPSILON →
       (calculateTriangleAABB v1 v2 v3).bounds0.y = min (min v1.y v2.y) v3.y - FLT_EPSILON ∧
       (calculateTriangleAABB v1 v2 v3).bounds1.y = max (max v1.y v2.y) v3.y + FLT_EPSILON) ∧
     (max (max v1.z v2.z) v3.z - min (min v1.z v2.z) v3.z < FLT_EPSILON →
       (calculateTriangleAABB v1 v2 v3).bounds0.z = min (min v1.z v2.z) v3.z - FLT_EPSILON ∧
       (calculateTriangleAABB v1 v2 v3).bounds1.z = max (max v1.z v2.z) v3.z + FLT_EPSILON)) := by
  have hx := min3_le_max3 v1.x v2.x v3.x
  have hy := min3_le_max3 v1.y v2.y v3.y
  have hz := min3_le_max3 v1.z v2.z v3.z
  have heps : (0 : ℚ) < FLT_EPSILON := by norm_num [FLT_EPSILON]
  simp only [calculateTriangleAABB, combineToVector4, min3, max3]
  refine ⟨⟨?_, ?_, ?_⟩,
          ⟨fun h => ⟨?_, ?_⟩, fun h => ⟨?_, ?_⟩, fun h => ⟨?_, ?_⟩⟩⟩
  · split_ifs with hf
    · linarith
    · push_neg at hf; linarith
  · split_ifs with hf
    · linarith
    · push_neg at hf; linarith
  · split_ifs with hf
    · linarith
    · push_neg at hf; linarith
  · rw [if_pos h]; ring
  · rw [if_pos h]; ring
  · rw [if_pos h]; ring
  · rw [if_pos h]; ring
  · rw [if_pos h]; ring
  · rw [if_pos h]; ring

/-- Witness for C8 at the fully degenerate triangle (0,0,0)³: the raw box is
flat in every axis and gets inflated to [−ε, ε]. -/
theorem claim_C8_witness :
    (max (max (0:ℚ) 0) 0 - min (min (0:ℚ) 0) 0 < FLT_EPSILON) ∧
    (calculateTriangleAABB ⟨0,0,0⟩ ⟨0,0,0⟩ ⟨0,0,0⟩).bounds0.x = min (min (0:ℚ) 0) 0 - FLT_EPSILON ∧
    (calculateTriangleAABB ⟨0,0,0⟩ ⟨0,0,0⟩ ⟨0,0,0⟩).bounds1.x = max (max (0:ℚ) 0) 0 + FLT_EPSILON := by
  have h : (max (max (0:ℚ) 0) 0 - min (min (0:ℚ) 0) 0 < FLT_EPSILON) := by
    norm_num [FLT_EPSILON]
  exact ⟨h, (claim_C8_triangle_aabb_never_degenerate ⟨0,0,0⟩ ⟨0,0,0⟩ ⟨0,0,0⟩).2.1 h⟩

/-!
## Transform.h: `normalizeQuaternion`  (claim C10)
-/

/-- Quaternion `{r, i, j, k}` of Transform.h. -/
structure Quaternion where
  r : ℚ
  i : ℚ
  j : ℚ
  k : ℚ
  deriving DecidableEq

/-- `normalizeQuaternion` of Transform.h, lines 88–106.  `sqrt` leaves ℚ, so
it is kept abstract as the parameter `sqrtF`; everything else is verbatim:
if the squared magnitude is below `FLT_EPSILON` the quaternion becomes the
identity rotation without any division, otherwise all four components are
scaled by `1/sqrt(d)`. -/
def normalizeQuaternion (sqrtF : ℚ → ℚ) (q : Quaternion) : Quaternion :=
  let d := q.r * q.r + q.i * q.i + q.j * q.j + q.k * q.k
  if d < FLT_EPSILON then { r := 1, i := 0, j := 0, k := 0 }
  else
    let d2 := 1 / sqrtF d
    ⟨q.r * d2, q.i * d2, q.j * d2, q.k * d2⟩

/-- C10: `normalizeQuaternion` never divides by zero — below the
`FLT_EPSILON` magnitude guard it returns the identity rotation without
dividing, and otherwise the divisor `sqrt(d)` is nonzero (for any genuine
square root, i.e. any `sqrtF` positive on positives) and all four
components are scaled by `1/sqrt(d)`. -/
theorem claim_C10_normalize_quaternion_guard (sqrtF : ℚ → ℚ) (q : Quaternion)
    (hs : ∀ x : ℚ, 0 < x → 0 < sqrtF x) :
    (q.r * q.r + q.i * q.i + q.j * q.j + q.k * q.k < FLT_EPSILON →
      normalizeQuaternion sqrtF q = ⟨1, 0, 0, 0⟩) ∧
    (¬ q.r * q.r + q.i * q.i + q.j * q.j + q.k * q.k < FLT_EPSILON →
      sqrtF (q.r * q.r + q.i * q.i + q.j * q.j + q.k * q.k) ≠ 0 ∧
      normalizeQuaternion sqrtF q =
        ⟨q.r * (1 / sqrtF (q.r * q.r + q.i * q.i + q.j * q.j + q.k * q.k)),
         q.i * (1 / sqrtF (q.r * q.r + q.i * q.i + q.j * q.j + q.k * q.k)),
         q.j * (1 / sqrtF (q.r * q.r + q.i * q.i + q.j * q.j + q.k * q.k)),
         q.k * (1 / sqrtF (q.r * q.r + q.i * q.i + q.j * q.j + q.k * q.k))⟩) := by
  constructor
  · intro h
    simp [normalizeQuaternion, h]
  · intro h
    have heps : (0 : ℚ) < FLT_EPSILON := by norm_num [FLT_EPSILON]
    have hd : 0 < q.r * q.r + q.i * q.i + q.j * q.j + q.k * q.k := by
      push_neg at h; linarith
    refine ⟨ne_of_gt (hs _ hd), ?_⟩
    simp [normalizeQuaternion, h]

/-- Witness for C10 at the unit quaternion (with `id` as the abstract square
root, which is positive on positives): the guard is not taken and the
divisor is nonzero. -/
theorem claim_C10_witness :
    ¬ ((1:ℚ) * 1 + 0 * 0 + 0 * 0 + 0 * 0) < FLT_EPSILON ∧
    id ((1:ℚ) * 1 + 0 * 0 + 0 * 0 + 0 * 0) ≠ 0 := by
  have h : ¬ ((1:ℚ) * 1 + 0 * 0 + 0 * 0 + 0 * 0) < FLT_EPSILON := by
    norm_num [FLT_EPSILON]
  exact ⟨h,
    ((claim_C10_normalize_quaternion_guard id ⟨1, 0, 0, 0⟩ (fun _ hx => hx)).2 h).1⟩

/-!
## Triangle.h: `triangleIntersect`  (claim C3)
-/

/-- The Möller–Trumbore determinant `det = dot(edge1, pvec)` of
`triangleIntersect` (Triangle.h lines 72–79). -/
def triangleIntersectDet (vert0 vert1 vert2 dir : Vec3) : ℚ :=
  dot (sub3 vert1 vert0) (cross dir (sub3 vert2 vert0))

/-- The barycentric parameter `u = dot(tvec, pvec) * inv_det` of
`triangleIntersect` (Triangle.h line 88). -/
def triangleIntersectU (vert0 vert1 vert2 orig dir : Vec3) : ℚ :=
  dot (sub3 orig vert0) (cross dir (sub3 vert2 vert0)) *
    (1 / triangleIntersectDet vert0 vert1 vert2 dir)

/-- The barycentric parameter `v = dot(dir, qvec) * inv_det` of
`triangleIntersect` (Triangle.h line 97). -/
def triangleIntersectV (vert0 vert1 vert2 orig dir : Vec3) : ℚ :=
  dot dir (cross (sub3 orig vert0) (sub3 vert1 vert0)) *
    (1 / triangleIntersectDet vert0 vert1 vert2 dir)

/-- `triangleIntersect` of Triangle.h, lines 66–107 (Möller–Trumbore,
branchless).  The `int flag` accumulation of hit conditions becomes a `Bool`
conjunction (the source values are always 0/1); `normalize` leaves ℚ, so it
is the abstract parameter `normalizeF`, applied — exactly as in the source —
to `cross(edge1, edge2)`.  Only the `w` lane is multiplied by the flag.
Division is exact rational division (the `inv_det` products are cancelled by
the zero flag whenever the determinant is near zero, as in the source). -/
def triangleIntersect (normalizeF : Vec3 → Vec3)
    (vert0 vert1 vert2 orig dir : Vec3) : Vec4 :=
  let edge1 := sub3 vert1 vert0
  let edge2 := sub3 vert2 vert0
  let pvec := cross dir edge2
  let det := dot edge1 pvec
  let flag : Bool := decide (|det| ≥ FLT_EPSILON)
  let inv_det := 1 / det
  let tvec := sub3 orig vert0
  let u := dot tvec pvec * inv_det
  let flag := flag && decide (u < 1)
  let flag := flag && decide (u ≥ 0)
  let qvec := cross tvec edge1
  let v := dot dir qvec * inv_det
  let flag := flag && decide (u + v ≤ 1)
  let flag := flag && decide (v ≥ 0)
  let t := dot edge2 qvec * inv_det * (if flag then 1 else 0)
  let normal := normalizeF (cross edge1 edge2)
  ⟨normal.x, normal.y, normal.z, t⟩

/-- C3: the `x,y,z` lanes of `triangleIntersect` are
`normalize(cross(vert1 − vert0, vert2 − vert0))` unconditionally (so only
the `w` lane is scaled by the hit flag), and the `w` lane is `0` whenever
the determinant is below `FLT_EPSILON` in magnitude or the barycentric
coordinates fail `u ∈ [0,1]`, `v ≥ 0`, `u + v ≤ 1`. -/
theorem claim_C3_triangle_intersect_lanes (normalizeF : Vec3 → Vec3)
    (vert0 vert1 vert2 orig dir : Vec3) :
    ((triangleIntersect normalizeF vert0 vert1 vert2 orig dir).x =
       (normalizeF (cross (sub3 vert1 vert0) (sub3 vert2 vert0))).x ∧
     (triangleIntersect normalizeF vert0 vert1 vert2 orig dir).y =
       (normalizeF (cross (sub3 vert1 vert0) (sub3 vert2 vert0))).y ∧
     (triangleIntersect normalizeF vert0 vert1 vert2 orig dir).z =
       (normalizeF (cross (sub3 vert1 vert0) (sub3 vert2 vert0))).z) ∧
    (|triangleIntersectDet vert0 vert1 vert2 dir| < FLT_EPSILON ∨
     triangleIntersectU vert0 vert1 vert2 orig dir < 0 ∨
     1 < triangleIntersectU vert0 vert1 vert2 orig dir ∨
     triangleIntersectV vert0 vert1 vert2 orig dir < 0 ∨
     1 < triangleIntersectU vert0 vert1 vert2 orig dir +
         triangleIntersectV vert0 vert1 vert2 orig dir →
      (triangleIntersect normalizeF vert0 vert1 vert2 orig dir).w = 0) := by
  refine ⟨⟨rfl, rfl, rfl⟩, fun h => ?_⟩
  simp only [triangleIntersectDet, triangleIntersectU, triangleIntersectV] at h
  simp only [triangleIntersect]
  rcases h with h | h | h | h | h
  · rw [decide_eq_false (not_le.mpr h)]
    simp
  · rw [decide_eq_false (not_le.mpr h)]
    simp
  · rw [decide_eq_false (not_lt.mpr (le_of_lt h))]
    simp
  · rw [decide_eq_false (not_le.mpr h)]
    simp
  · rw [decide_eq_false (not_le.mpr h)]
    simp

/-- Witness for C3 at a degenerate triangle (all vertices at the origin):
the determinant is 0, which is below `FLT_EPSILON`, so the returned `t` is 0. -/
theorem claim_C3_witness :
    |triangleIntersectDet ⟨0,0,0⟩ ⟨0,0,0⟩ ⟨0,0,0⟩ ⟨1,0,0⟩| < FLT_EPSILON ∧
    (triangleIntersect id ⟨0,0,0⟩ ⟨0,0,0⟩ ⟨0,0,0⟩ ⟨0,0,0⟩ ⟨1,0,0⟩).w = 0 := by
  have h : |triangleIntersectDet ⟨0,0,0⟩ ⟨0,0,0⟩ ⟨0,0,0⟩ ⟨1,0,0⟩| < FLT_EPSILON := by
    norm_num [triangleIntersectDet, dot, cross, sub3, FLT_EPSILON]
  exact ⟨h,
    (claim_C3_triangle_intersect_lanes id ⟨0,0,0⟩ ⟨0,0,0⟩ ⟨0,0,0⟩ ⟨0,0,0⟩ ⟨1,0,0⟩).2
      (Or.inl h)⟩

/-!
## BVH.h: `constructNode`  (claim C4)

BVH nodes (`BVHData.h`): `data[0]` is the parent index; for leaves
`data[1..3]` are triangle/submesh/model indices, for internal nodes
`data[1]`/`data[2]` are the two children.  The node type lives in the `w`
lane of `boundingBox.bounds[0]`.
-/

/-- `struct BVHNode` of BVHData.h (`data[4]` plus box). -/
structure BVHNode where
  parent : ℕ
  data1 : ℕ
  data2 : ℕ
  data3 : ℕ
  boundingBox : AABB
  deriving DecidableEq

/-- `childA(node) = node.data[1]` (BVHData.h). -/
def childA (n : BVHNode) : ℕ := n.data1

/-- `childB(node) = node.data[2]` (BVHData.h). -/
def childB (n : BVHNode) : ℕ := n.data2

/-- `type(node) = node.boundingBox.bounds[0].w` (BVHData.h). -/
def nodeType (n : BVHNode) : ℚ := n.boundingBox.bounds0.w

/-- `INNER_NODE` tag. -/
def INNER_NODE : ℚ := 0

/-- `LEAF_NODE` tag. -/
def LEAF_NODE : ℚ := 1

/-- Pointwise update of the node buffer at one index. -/
def updNode (nodes : ℕ → BVHNode) (i : ℕ) (g : BVHNode → BVHNode) : ℕ → BVHNode :=
  fun j => if j = i then g (nodes j) else nodes j

/-- `constructNode` of BVH.h, lines 291–321.  The Karras helpers
`determineRange` and `findSplit` are abstracted as the parameters
`determineRangeF`/`findSplitF` (the claim under study quantifies over their
results); every store of the source body appears as a pointwise buffer
update, in source order: the `fillVector3` box initializations, the node
type tag, the conditional root-parent store, the two child links, and the
two children's parent links.  The branchless `x * flag + y * !flag` child
selection is written as the equivalent conditional. -/
def constructNode (determineRangeF : ℕ → ℕ × ℕ) (findSplitF : ℕ → ℕ → ℕ)
    (nodes : ℕ → BVHNode) (mcToLeaves : ℕ → ℕ × ℕ) (numLeaves idx : ℕ) :
    ℕ → BVHNode :=
  let range := determineRangeF idx
  let split := findSplitF range.1 range.2
  let internalNodeIndex := idx + numLeaves
  let first := min range.1 range.2
  let last := max range.1 range.2
  let child_A := if first = split then (mcToLeaves split).2 else split + numLeaves
  let child_B := if last = split + 1 then (mcToLeaves (split + 1)).2
                 else split + 1 + numLeaves
  let nodes := updNode nodes internalNodeIndex fun n =>
    { n with boundingBox :=
        { bounds0 := ⟨FLT_MAX, FLT_MAX, FLT_MAX, n.boundingBox.bounds0.w⟩,
          bounds1 := ⟨FLT_MIN, FLT_MIN, FLT_MIN, n.boundingBox.bounds1.w⟩ } }
  let nodes := updNode nodes internalNodeIndex fun n =>
    { n with boundingBox :=
        { n.boundingBox with
          bounds0 := { n.boundingBox.bounds0 with w := INNER_NODE } } }
  let nodes := if internalNodeIndex = numLeaves then
      updNode nodes internalNodeIndex (fun n => { n with parent := UINT_MAX })
    else nodes
  let nodes := updNode nodes internalNodeIndex fun n => { n with data1 := child_A }
  let nodes := updNode nodes internalNodeIndex fun n => { n with data2 := child_B }
  let nodes := updNode nodes child_A fun n => { n with parent := internalNodeIndex }
  updNode nodes child_B fun n => { n with parent := internalNodeIndex }

theorem childA_parent_upd (n : BVHNode) (p : ℕ) :
    childA { n with parent := p } = childA n := rfl

theorem childA_data1_upd (n : BVHNode) (v : ℕ) :
    childA { n with data1 := v } = v := rfl

theorem childA_data2_upd (n : BVHNode) (v : ℕ) :
    childA { n with data2 := v } = childA n := rfl

theorem childB_parent_upd (n : BVHNode) (p : ℕ) :
    childB { n with parent := p } = childB n := rfl

theorem childB_data2_upd (n : BVHNode) (v : ℕ) :
    childB { n with data2 := v } = v := rfl

theorem parent_parent_upd (n : BVHNode) (p : ℕ) :
    ({ n with parent := p } : BVHNode).parent = p := rfl

theorem parent_data1_upd (n : BVHNode) (v : ℕ) :
    ({ n with data1 := v } : BVHNode).parent = n.parent := rfl

theorem parent_data2_upd (n : BVHNode) (v : ℕ) :
    ({ n with data2 := v } : BVHNode).parent = n.parent := rfl

theorem parent_box_upd (n : BVHNode) (bb : AABB) :
    ({ n with boundingBox := bb } : BVHNode).parent = n.parent := rfl

/-- C4: `constructNode` at internal node `i` with range `[first,last]` and
split `s` links `child_a = sorted[s].value` when `first = s` (else `s + N`),
`child_b = sorted[s+1].value` when `last = s + 1` (else `s + 1 + N`), sets
the parent of both children to `i + N`, and gives the root (array index `N`,
i.e. `i = 0`) parent `UINT_MAX`.  The hypotheses say that leaf values name
leaves (`value < N`) and that the split lies at or after the low end of the
range (true of `findSplit`). -/
theorem claim_C4_construct_node_links (dR : ℕ → ℕ × ℕ) (fS : ℕ → ℕ → ℕ)
    (nodes : ℕ → BVHNode) (mc : ℕ → ℕ × ℕ) (numLeaves idx : ℕ)
    (r1 r2 s cA cB : ℕ)
    (hr : dR idx = (r1, r2)) (hs : fS r1 r2 = s)
    (hsf : min r1 r2 ≤ s)
    (hv : ∀ j, (mc j).2 < numLeaves)
    (hA : cA = if min r1 r2 = s then (mc s).2 else s + numLeaves)
    (hB : cB = if max r1 r2 = s + 1 then (mc (s + 1)).2 else s + 1 + numLeaves) :
    childA (constructNode dR fS nodes mc numLeaves idx (idx + numLeaves)) = cA ∧
    childB (constructNode dR fS nodes mc numLeaves idx (idx + numLeaves)) = cB ∧
    (constructNode dR fS nodes mc numLeaves idx cA).parent = idx + numLeaves ∧
    (constructNode dR fS nodes mc numLeaves idx cB).parent = idx + numLeaves ∧
    (idx = 0 →
      (constructNode dR fS nodes mc numLeaves idx numLeaves).parent = UINT_MAX) := by
  have hcbA : idx = 0 → numLeaves ≠ cA := by
    intro _ hEq
    rw [hA] at hEq
    split_ifs at hEq with hleaf
    · exact absurd hEq.symm (Nat.ne_of_lt (hv s))
    · simp only [Nat.min_def] at hsf hleaf
      omega
  have hcbB : idx = 0 → numLeaves ≠ cB := by
    intro _ hEq
    rw [hB] at hEq
    split_ifs at hEq with hleaf
    · exact absurd hEq.symm (Nat.ne_of_lt (hv (s + 1)))
    · omega
  simp only [constructNode, updNode, hr, hs]
  rw [← hA, ← hB]
  refine ⟨?_, ?_, ?_, ?_, ?_⟩
  · simp [updNode, childA, apply_ite BVHNode.data1]
  · simp [updNode, childB, apply_ite BVHNode.data2]
  · simp [updNode, apply_ite BVHNode.parent]
  · simp [updNode, apply_ite BVHNode.parent]
  · intro h0
    have hA' := hcbA h0
    have hB' := hcbB h0
    subst h0
    simp [updNode, apply_ite BVHNode.parent, hA', hB']

/-- Witness for C4 on a concrete 4-leaf instance: range (0,3), split at the
low end, so child A is the leaf `sorted[0].value = 0` and child B the
internal node `1 + 4 = 5`; the root (array index 4) gets parent `UINT_MAX`. -/
theorem claim_C4_witness :
    childA (constructNode (fun _ => (0, 3)) (fun a b => min a b)
      (fun _ => ⟨0, 0, 0, 0, ⟨⟨0,0,0,0⟩, ⟨0,0,0,0⟩⟩⟩) (fun j => (j, 0)) 4 0 4) = 0 ∧
    childB (constructNode (fun _ => (0, 3)) (fun a b => min a b)
      (fun _ => ⟨0, 0, 0, 0, ⟨⟨0,0,0,0⟩, ⟨0,0,0,0⟩⟩⟩) (fun j => (j, 0)) 4 0 4) = 5 ∧
    (constructNode (fun _ => (0, 3)) (fun a b => min a b)
      (fun _ => ⟨0, 0, 0, 0, ⟨⟨0,0,0,0⟩, ⟨0,0,0,0⟩⟩⟩) (fun j => (j, 0)) 4 0 4).parent
      = UINT_MAX := by
  have h := claim_C4_construct_node_links (fun _ => (0, 3)) (fun a b => min a b)
    (fun _ => ⟨0, 0, 0, 0, ⟨⟨0,0,0,0⟩, ⟨0,0,0,0⟩⟩⟩) (fun j => (j, 0)) 4 0
    0 3 0 0 5 rfl rfl (by simp) (fun _ => by norm_num) (by norm_num) (by norm_num)
  exact ⟨h.1, h.2.1, h.2.2.2.2 rfl⟩

/-!
## BVH.h: `bvh_generate_contact` traversal  (claim C1)
-/

/-- `containedInRange` macro of RTKernelUtils.h (inclusive range test). -/
def containedInRange (lo hi value : ℚ) : Bool :=
  if lo ≤ value ∧ value ≤ hi then true else false

/-- `isPointInside` of AABB.h, lines 178–184. -/
def isPointInside (aabb : AABB) (point : Vec3) : Bool :=
  containedInRange aabb.bounds0.x aabb.bounds1.x point.x &&
  containedInRange aabb.bounds0.y aabb.bounds1.y point.y &&
  containedInRange aabb.bounds0.z aabb.bounds1.z point.z

/-- `AABBIntersect` of AABB.h, lines 126–142: the branchless slab test.
`bounds[0.0f > inv]` selects the far bound exactly when the reciprocal
direction is negative; the final `tmin * flag` cancels the near parameter to
0 on a miss.  (Division is exact; rays with a zero direction component are
outside the scope of the claims proved with this model.) -/
def AABBIntersect (aabb : AABB) (ro rd : Vec3) : ℚ :=
  let invx := 1 / rd.x
  let invy := 1 / rd.y
  let invz := 1 / rd.z
  let tmin := ((if 0 > invx then aabb.bounds1.x else aabb.bounds0.x) - ro.x) * invx
  let tmax := ((if 0 > invx then aabb.bounds0.x else aabb.bounds1.x) - ro.x) * invx
  let tymin := ((if 0 > invy then aabb.bounds1.y else aabb.bounds0.y) - ro.y) * invy
  let tymax := ((if 0 > invy then aabb.bounds0.y else aabb.bounds1.y) - ro.y) * invy
  let flag1 : Bool := if tmin > tymax ∨ tymin > tmax then false else true
  let tmin2 := max tmin tymin
  let tmax2 := min tmax tymax
  let tzmin := ((if 0 > invz then aabb.bounds1.z else aabb.bounds0.z) - ro.z) * invz
  let tzmax := ((if 0 > invz then aabb.bounds0.z else aabb.bounds1.z) - ro.z) * invz
  let flag : Bool := flag1 && (if tmin2 > tzmax ∨ tzmin > tmax2 then false else true)
  let tmin3 := max tmin2 tzmin
  tmin3 * (if flag then 1 else 0)

/-- Traversal state of `bvh_generate_contact` (BVH.h lines 349–355): the
current node, the explicit stack (`stack`/`stackPointer`, with the
`UINT_MAX` sentinel pushed first), and the best contact so far. -/
structure TraverseState where
  currentIdx : ℕ
  stack : List ℕ
  resContactData : Vec4
  resMaterialIdx : ℕ
  deriving DecidableEq

/-- `currentIdx = stack[--stackPointer]`.  (Underflow cannot occur before
the sentinel is popped; on the empty stack the model just terminates.) -/
def stackPop (s : TraverseState) : TraverseState :=
  match s.stack with
  | [] => { s with currentIdx := UINT_MAX }
  | h :: t => { s with currentIdx := h, stack := t }

/-- One iteration of the `do … while` loop body of `bvh_generate_contact`
(BVH.h lines 356–399).  The scene lookup of the leaf branch — fetching the
triangle of the leaf and running `triangleIntersect`, plus the mesh's
material index — is abstracted by `leafIsect`. -/
def bvhGenerateContactStep (bvh : ℕ → BVHNode) (leafIsect : ℕ → Vec4 × ℕ)
    (rayOrigin rayDirection : Vec3) (s : TraverseState) : TraverseState :=
  let node := bvh s.currentIdx
  if nodeType node = INNER_NODE then
    let child_A_idx := childA node
    let child_B_idx := childB node
    let child_A_box := (bvh child_A_idx).boundingBox
    let child_B_box := (bvh child_B_idx).boundingBox
    let tA := AABBIntersect child_A_box rayOrigin rayDirection
    let tB := AABBIntersect child_B_box rayOrigin rayDirection
    let aValid : Bool := if tA > 0 then true else isPointInside child_A_box rayOrigin
    let bValid : Bool := if tB > 0 then true else isPointInside child_B_box rayOrigin
    if aValid && bValid then
      { s with currentIdx := child_A_idx, stack := child_B_idx :: s.stack }
    else if aValid then { s with currentIdx := child_A_idx }
    else if bValid then { s with currentIdx := child_B_idx }
    else stackPop s
  else
    let contactData := (leafIsect s.currentIdx).1
    let s1 := if contactData.w > 0 ∧ contactData.w < s.resContactData.w then
        { s with resContactData := contactData,
                 resMaterialIdx := (leafIsect s.currentIdx).2 }
      else s
    stackPop s1

/-- C1 (amended): at an internal node, `bvh_generate_contact` descends into
child A whenever child A is valid (pushing child B exactly when child B is
also valid), descends into child B only when child A is invalid, and pops
the stack when neither child is valid.  The descent order does not compare
the two slab-test parameters: when both children are valid the traversal
always enters child A first, whichever is nearer. -/
theorem claim_C1_amended_internal_descent (bvh : ℕ → BVHNode)
    (leafIsect : ℕ → Vec4 × ℕ) (rayOrigin rayDirection : Vec3)
    (s : TraverseState) (aV bV : Bool)
    (hinner : nodeType (bvh s.currentIdx) = INNER_NODE)
    (hav : aV = (if AABBIntersect (bvh (childA (bvh s.currentIdx))).boundingBox
                      rayOrigin rayDirection > 0 then true
                 else isPointInside (bvh (childA (bvh s.currentIdx))).boundingBox
                      rayOrigin))
    (hbv : bV = (if AABBIntersect (bvh (childB (bvh s.currentIdx))).boundingBox
                      rayOrigin rayDirection > 0 then true
                 else isPointInside (bvh (childB (bvh s.currentIdx))).boundingBox
                      rayOrigin)) :
    (aV = true → bV = true →
      bvhGenerateContactStep bvh leafIsect rayOrigin rayDirection s =
        { s with currentIdx := childA (bvh s.currentIdx),
                 stack := childB (bvh s.currentIdx) :: s.stack }) ∧
    (aV = true → bV = false →
      bvhGenerateContactStep bvh leafIsect rayOrigin rayDirection s =
        { s with currentIdx := childA (bvh s.currentIdx) }) ∧
    (aV = false → bV = true →
      bvhGenerateContactStep bvh leafIsect rayOrigin rayDirection s =
        { s with currentIdx := childB (bvh s.currentIdx) }) ∧
    (aV = false → bV = false →
      bvhGenerateContactStep bvh leafIsect rayOrigin rayDirection s =
        stackPop s) := by
  subst hav hbv
  refine ⟨fun h1 h2 => ?_, fun h1 h2 => ?_, fun h1 h2 => ?_, fun h1 h2 => ?_⟩ <;>
    simp [bvhGenerateContactStep, hinner, h1, h2]

/-- Leaf node with box `[5,6]³` (the farther child in the C1 instance). -/
def bvhChildFar : BVHNode := ⟨2, 0, 0, 0, ⟨⟨5, 5, 5, LEAF_NODE⟩, ⟨6, 6, 6, 0⟩⟩⟩

/-- Leaf node with box `[2,3]³` (the nearer child in the C1 instance). -/
def bvhChildNear : BVHNode := ⟨2, 0, 0, 0, ⟨⟨2, 2, 2, LEAF_NODE⟩, ⟨3, 3, 3, 0⟩⟩⟩

/-- Internal root with child A = node 0 (far) and child B = node 1 (near). -/
def bvhRootEx : BVHNode := ⟨UINT_MAX, 0, 1, 0, ⟨⟨2, 2, 2, INNER_NODE⟩, ⟨6, 6, 6, 0⟩⟩⟩

/-- A three-node BVH: leaves at 0 (far) and 1 (near), root at 2. -/
def bvhEx : ℕ → BVHNode :=
  fun i => if i = 0 then bvhChildFar else if i = 1 then bvhChildNear else bvhRootEx

/-- Trivial leaf-intersection oracle (never hits). -/
def leafIsectEx : ℕ → Vec4 × ℕ := fun _ => (⟨0, 0, 0, 0⟩, 0)

/-- Traversal state sitting at the root with the sentinel stack. -/
def stateEx : TraverseState := ⟨2, [UINT_MAX], ⟨0, 0, 0, FLT_MAX⟩, 0⟩

/-- Ray origin for the C1 instance. -/
def rayOEx : Vec3 := ⟨0, 0, 0⟩

/-- Ray direction for the C1 instance. -/
def rayDEx : Vec3 := ⟨1, 1, 1⟩

/-- Counterexample to C1 as stated: from the root of `bvhEx` with the ray
from the origin along (1,1,1), both children are valid and child B (slab
parameter 2) is strictly nearer than child A (slab parameter 5), yet the
traversal step descends into child A — not into the nearer valid child. -/
theorem claim_C1_counterexample :
    0 < AABBIntersect (bvhEx (childA (bvhEx 2))).boundingBox rayOEx rayDEx ∧
    0 < AABBIntersect (bvhEx (childB (bvhEx 2))).boundingBox rayOEx rayDEx ∧
    AABBIntersect (bvhEx (childB (bvhEx 2))).boundingBox rayOEx rayDEx <
      AABBIntersect (bvhEx (childA (bvhEx 2))).boundingBox rayOEx rayDEx ∧
    childA (bvhEx 2) ≠ childB (bvhEx 2) ∧
    (bvhGenerateContactStep bvhEx leafIsectEx rayOEx rayDEx stateEx).currentIdx =
      childA (bvhEx 2) := by
  have hA : AABBIntersect (bvhEx 0).boundingBox rayOEx rayDEx = 5 := by
    norm_num [AABBIntersect, bvhEx, bvhChildFar, rayOEx, rayDEx]
  have hB : AABBIntersect (bvhEx 1).boundingBox rayOEx rayDEx = 2 := by
    norm_num [AABBIntersect, bvhEx, bvhChildNear, rayOEx, rayDEx]
  have hcA : childA (bvhEx 2) = 0 := by norm_num [childA, bvhEx, bvhRootEx]
  have hcB : childB (bvhEx 2) = 1 := by norm_num [childB, bvhEx, bvhRootEx]
  rw [hcA, hcB, hA, hB]
  refine ⟨by norm_num, by norm_num, by norm_num, by norm_num, ?_⟩
  norm_num [bvhGenerateContactStep, nodeType, childA, childB, bvhEx, bvhRootEx,
            bvhChildFar, bvhChildNear, stateEx, rayOEx, rayDEx, AABBIntersect,
            INNER_NODE, LEAF_NODE]

/-- Witness for the amended C1 theorem on the `bvhEx` instance: both
children valid, so the step enters child A (node 0) and pushes child B
(node 1) on the stack. -/
theorem claim_C1_witness :
    bvhGenerateContactStep bvhEx leafIsectEx rayOEx rayDEx stateEx =
      { stateEx with currentIdx := childA (bvhEx 2),
                     stack := childB (bvhEx 2) :: stateEx.stack } := by
  have h := (claim_C1_amended_internal_descent bvhEx leafIsectEx rayOEx rayDEx
      stateEx _ _ (by norm_num [nodeType, bvhEx, bvhRootEx, stateEx, INNER_NODE])
      rfl rfl).1
  have ha : (if AABBIntersect (bvhEx (childA (bvhEx stateEx.currentIdx))).boundingBox
      rayOEx rayDEx > 0 then true
      else isPointInside (bvhEx (childA (bvhEx stateEx.currentIdx))).boundingBox
        rayOEx) = true := by
    norm_num [AABBIntersect, childA, bvhEx, bvhRootEx, bvhChildFar, stateEx,
              rayOEx, rayDEx]
  have hb : (if AABBIntersect (bvhEx (childB (bvhEx stateEx.currentIdx))).boundingBox
      rayOEx rayDEx > 0 then true
      else isPointInside (bvhEx (childB (bvhEx stateEx.currentIdx))).boundingBox
        rayOEx) = true := by
    norm_num [AABBIntersect, childB, bvhEx, bvhRootEx, bvhChildNear, stateEx,
              rayOEx, rayDEx]
  have h2 := h ha hb
  simpa [stateEx] using h2

/-!
## BitonicSort.cpp: kernel selection and launch geometry  (claim C2)
-/

/-- The kernel enum of BitonicSort.cpp (`ParallelBitonic_B2 … _C4`). -/
inductive BitonicKernel where
  | B2
  | B4
  | B8
  | B16
  | C2
  | C4
  deriving DecidableEq

/-- `ALLOWB`, the allowed-radix bit mask of BitonicSort.cpp line 66:
`(2+4+8)`.  Bit 16 — the B16 kernel — is not part of the mask. -/
def ALLOWB : ℕ := 2 + 4 + 8

/-- The `#if (ALLOWB & 16/8/4)` kernel-selection chain of
`BitonicSort::sort` (BitonicSort.cpp lines 127–153); each preprocessor
guard is kept as the corresponding mask test on `ALLOWB`.  Returns the
selected kernel and `ninc`. -/
def chooseKernel (inc : ℕ) : BitonicKernel × ℕ :=
  if ALLOWB &&& 16 ≠ 0 ∧ 8 ≤ inc then (BitonicKernel.B16, 4)
  else if ALLOWB &&& 8 ≠ 0 ∧ 4 ≤ inc then (BitonicKernel.B8, 3)
  else if ALLOWB &&& 4 ≠ 0 ∧ 2 ≤ inc then (BitonicKernel.B4, 2)
  else (BitonicKernel.B2, 1)

/-- One enqueued sort kernel: the kernel id, the (length, inc) step it
belongs to, the global thread count and the workgroup size. -/
structure SortLaunch where
  kid : BitonicKernel
  length : ℕ
  inc : ℕ
  nThreads : ℕ
  wg : ℕ
  deriving DecidableEq

/-- The inner `while (inc > 0)` loop of `BitonicSort::sort` for one value
of `length` (BitonicSort.cpp lines 123–186): select the kernel, launch over
`nThreads = num_items >> ninc` threads with
`wg = min(min(maxWG, 256), nThreads)`, then `inc >>= ninc`.  The first
argument is iteration fuel; `fuel = inc` suffices because `inc` strictly
decreases each iteration, so the fuel never runs out on the entry call. -/
def sortIncSteps (num_items maxWG length : ℕ) : ℕ → ℕ → List SortLaunch
  | 0, _ => []
  | fuel + 1, inc =>
    if 0 < inc then
      let kn := chooseKernel inc
      let nThreads := num_items >>> kn.2
      let wg := min (min maxWG 256) nThreads
      ⟨kn.1, length, inc, nThreads, wg⟩ ::
        sortIncSteps num_items maxWG length fuel (inc >>> kn.2)
    else []

/-- The outer `for (length = 1; length < num_items; length <<= 1)` loop of
`BitonicSort::sort` (line 120).  First argument is iteration fuel;
`fuel = num_items` suffices since `length` doubles from 1. -/
def sortLengthSteps (num_items maxWG : ℕ) : ℕ → ℕ → List SortLaunch
  | 0, _ => []
  | fuel + 1, length =>
    if length < num_items then
      sortIncSteps num_items maxWG length length length ++
        sortLengthSteps num_items maxWG fuel (length <<< 1)
    else []

/-- Every kernel launch performed by `BitonicSort::sort(input, num_items)`,
in order. -/
def sortLaunches (num_items maxWG : ℕ) : List SortLaunch :=
  sortLengthSteps num_items maxWG num_items 1

/-- With `ALLOWB = 2+4+8`, the selection chain reduces to: B8 for
`inc ≥ 4`, B4 for `inc ≥ 2`, else B2 — B16 is compiled out. -/
theorem chooseKernel_eq (inc : ℕ) :
    chooseKernel inc =
      (if 4 ≤ inc then (BitonicKernel.B8, 3)
       else if 2 ≤ inc then (BitonicKernel.B4, 2)
       else (BitonicKernel.B2, 1)) := by
  unfold chooseKernel
  have h16 : ALLOWB &&& 16 = 0 := by decide
  have h8 : ALLOWB &&& 8 = 8 := by decide
  have h4 : ALLOWB &&& 4 = 4 := by decide
  simp [h16, h8, h4]

theorem sortIncSteps_mem (num_items maxWG length : ℕ) :
    ∀ fuel inc L, L ∈ sortIncSteps num_items maxWG length fuel inc →
      L.kid = (chooseKernel L.inc).1 ∧
      L.nThreads = num_items >>> (chooseKernel L.inc).2 ∧
      L.wg = min (min maxWG 256) L.nThreads ∧ 1 ≤ L.inc := by
  intro fuel
  induction fuel with
  | zero => intro inc L h; simp [sortIncSteps] at h
  | succ n ih =>
    intro inc L h
    rw [sortIncSteps] at h
    by_cases hp : 0 < inc
    · rw [if_pos hp] at h
      rcases List.mem_cons.mp h with h1 | h1
      · subst h1
        exact ⟨rfl, rfl, rfl, hp⟩
      · exact ih _ _ h1
    · rw [if_neg hp] at h
      simp at h

theorem sortLengthSteps_mem (num_items maxWG : ℕ) :
    ∀ fuel length L, L ∈ sortLengthSteps num_items maxWG fuel length →
      L.kid = (chooseKernel L.inc).1 ∧
      L.nThreads = num_items >>> (chooseKernel L.inc).2 ∧
      L.wg = min (min maxWG 256) L.nThreads ∧ 1 ≤ L.inc := by
  intro fuel
  induction fuel with
  | zero => intro length L h; simp [sortLengthSteps] at h
  | succ n ih =>
    intro length L h
    rw [sortLengthSteps] at h
    by_cases hp : length < num_items
    · rw [if_pos hp] at h
      rcases List.mem_append.mp h with h1 | h1
      · exact sortIncSteps_mem num_items maxWG length length length L h1
      · exact ih _ _ h1
    · rw [if_neg hp] at h
      simp at h

/-- C2 (amended): with `ALLOWB = 2+4+8` the B16 kernel is compiled out, so
every launch of `BitonicSort::sort` uses B8 when `inc ≥ 4` (including all
`inc ≥ 8`), B4 when `inc ≥ 2`, and B2 otherwise, over `N >> ninc` threads
(`ninc = 3/2/1` respectively) with the workgroup size clamped to
`min(min(device_max_wg, 256), N >> ninc)`. -/
theorem claim_C2_amended_kernel_selection (num_items maxWG : ℕ) (L : SortLaunch)
    (hL : L ∈ sortLaunches num_items maxWG) :
    L.kid = (if 4 ≤ L.inc then BitonicKernel.B8
             else if 2 ≤ L.inc then BitonicKernel.B4
             else BitonicKernel.B2) ∧
    L.nThreads = num_items >>> (if 4 ≤ L.inc then 3 else if 2 ≤ L.inc then 2 else 1) ∧
    L.wg = min (min maxWG 256) L.nThreads ∧ 1 ≤ L.inc := by
  have h := sortLengthSteps_mem num_items maxWG num_items 1 L hL
  rw [chooseKernel_eq] at h
  refine ⟨?_, ?_, h.2.2.1, h.2.2.2⟩
  · rcases h with ⟨h1, -, -, -⟩
    split_ifs at h1 ⊢ <;> simp_all
  · rcases h with ⟨-, h2, -, -⟩
    split_ifs at h2 ⊢ <;> simp_all

/-- Counterexample to C2 as stated: sorting 32 elements produces a launch
at `inc = 8` (so `inc ≥ 8`) whose kernel is B8, not B16 — with `ALLOWB =
2+4+8` the B16 kernel is never selected. -/
theorem claim_C2_counterexample :
    (⟨BitonicKernel.B8, 8, 8, 4, 4⟩ : SortLaunch) ∈ sortLaunches 32 1024 ∧
    BitonicKernel.B8 ≠ BitonicKernel.B16 := by
  decide

/-- Witness for the amended C2 theorem at the first launch of a 2-element
sort: `length = inc = 1`, kernel B2, one thread, workgroup 1. -/
theorem claim_C2_witness :
    (⟨BitonicKernel.B2, 1, 1, 1, 1⟩ : SortLaunch) ∈ sortLaunches 2 1024 ∧
    (⟨BitonicKernel.B2, 1, 1, 1, 1⟩ : SortLaunch).kid = BitonicKernel.B2 ∧
    (⟨BitonicKernel.B2, 1, 1, 1, 1⟩ : SortLaunch).nThreads = 2 >>> 1 ∧
    (⟨BitonicKernel.B2, 1, 1, 1, 1⟩ : SortLaunch).wg = min (min 1024 256) 1 := by
  have hmem : (⟨BitonicKernel.B2, 1, 1, 1, 1⟩ : SortLaunch) ∈ sortLaunches 2 1024 := by
    decide
  have h := claim_C2_amended_kernel_selection 2 1024 _ hmem
  exact ⟨hmem, by simpa using h.1, by simpa using h.2.1, by simpa using h.2.2.1⟩

/-!
## PrefixSum.cpp: precondition checks of `computePrefixSum`  (claim C7)
-/

/-- `Result` of Errata.h: `Success` or `Error`. -/
inductive CLResult where
  | Success
  | Error
  deriving DecidableEq

/-- Which prefix-sum kernel a launch enqueues. -/
inductive PSKernelKind where
  | groupK
  | globalK
  deriving DecidableEq

/-- One enqueued prefix-sum kernel with its launch geometry. -/
structure PSLaunch where
  kind : PSKernelKind
  offset : ℕ
  globalThreads : ℕ
  localThreads : ℕ
  deriving DecidableEq

/-- Launch geometry of `PrefixSum::invokeGroupKernel` (PrefixSum.cpp lines
135–176): `(length/offset + 1) >> 1` threads rounded up to a multiple of
the workgroup size. -/
def invokeGroupKernelLaunch (maxWG offset length : ℕ) : PSLaunch :=
  let dataSize := length / offset
  let localThreads := maxWG
  let globalThreads := (dataSize + 1) >>> 1
  let globalThreads := ((globalThreads + localThreads - 1) / localThreads) * localThreads
  ⟨PSKernelKind.groupK, offset, globalThreads, localThreads⟩

/-- Launch geometry of `PrefixSum::invokeGlobalKernel` (PrefixSum.cpp lines
178–213). -/
def invokeGlobalKernelLaunch (maxWG offset length : ℕ) : PSLaunch :=
  let localThreads := maxWG
  let localDataSize := localThreads <<< 1
  let globalThreads := length - offset
  let globalThreads := globalThreads - globalThreads / (offset * localDataSize) * offset
  let globalThreads := ((globalThreads + localThreads - 1) / localThreads) * localThreads
  ⟨PSKernelKind.globalK, offset, globalThreads, localThreads⟩

/-- `isPowerOfTwo` of RTKernelUtils.h, lines 188–199: returns true for
`x = 0` and `x = 1`, else scans `1 << shift` for `shift = 1 … 63`. -/
def isPowerOfTwo (x : ℕ) : Bool :=
  if x = 0 ∨ x = 1 then true
  else (List.range' 1 63).any fun shift => 1 <<< shift == x

/-- The scan loop of `PrefixSum::computePrefixSum` (PrefixSum.cpp lines
115–130): for `offset = 1; offset < size; offset *= 2*maxWG`, launch the
group kernel when more than one element remains per stride and the global
fix-up when `offset > 1`.  First argument is iteration fuel; `size + 1`
suffices whenever `maxWG ≥ 1` (the C loop does not terminate for
`maxWG = 0`, a configuration outside the claims under study). -/
def prefixScanLoop (maxWG size : ℕ) : ℕ → ℕ → List PSLaunch
  | 0, _ => []
  | fuel + 1, offset =>
    if offset < size then
      ((if 1 < size / offset then [invokeGroupKernelLaunch maxWG offset size] else []) ++
       (if 1 < offset then [invokeGlobalKernelLaunch maxWG offset size] else [])) ++
        prefixScanLoop maxWG size fuel (offset * (maxWG <<< 1))
    else []

/-- `PrefixSum::computePrefixSum` (PrefixSum.cpp lines 94–133): the
power-of-two check, then the local-memory check
(`(maxWG << 1) * sizeof(CL_INT) > localMem`), then the scan loop.  Returns
the `Result`, the kernels launched, and the `Errata` message (if filled). -/
def computePrefixSum (maxWG localMem size : ℕ) :
    CLResult × List PSLaunch × Option String :=
  if isPowerOfTwo size = false then
    (CLResult.Error, [], some "Input size must be adjusted to power of 2")
  else
    let localDataSize := maxWG <<< 1
    let neededLocalMemory := localDataSize * 4
    if neededLocalMemory > localMem then
      (CLResult.Error, [], some "Insufficient Local Memory")
    else
      (CLResult.Success, prefixScanLoop maxWG size (size + 1) 1, none)

/-- C7 (amended): `computePrefixSum` returns `Error` with the error record
filled and no kernel launched exactly when the size fails the host's
`isPowerOfTwo` test — which also accepts 0 — or `2·maxWG·4` bytes exceed
device local memory; any kernel launch implies both pre-conditions hold. -/
theorem claim_C7_amended_precondition_errors (maxWG localMem size : ℕ) :
    (((computePrefixSum maxWG localMem size).1 = CLResult.Error ∧
      (computePrefixSum maxWG localMem size).2.1 = [] ∧
      (computePrefixSum maxWG localMem size).2.2 ≠ none) ↔
     (isPowerOfTwo size = false ∨ 2 * maxWG * 4 > localMem)) ∧
    ((computePrefixSum maxWG localMem size).2.1 ≠ [] →
      isPowerOfTwo size = true ∧ 2 * maxWG * 4 ≤ localMem) := by
  have hshift : maxWG <<< 1 = 2 * maxWG := by
    simp [Nat.shiftLeft_eq]
    ring
  by_cases hp : isPowerOfTwo size = false
  · simp [computePrefixSum, hp]
  · by_cases hm : (maxWG <<< 1) * 4 > localMem
    · rw [hshift] at hm
      simp [computePrefixSum, hp, hshift, hm]
    · rw [hshift] at hm
      push_neg at hm
      have hm' : ¬ maxWG <<< 1 * 4 > localMem := by rw [hshift]; omega
      have hout : computePrefixSum maxWG localMem size =
          (CLResult.Success, prefixScanLoop maxWG size (size + 1) 1, none) := by
        simp only [computePrefixSum]
        rw [if_neg hp, if_neg hm']
      rw [hout]
      constructor
      · constructor
        · rintro ⟨h1, -⟩
          exact absurd h1 (by simp)
        · rintro (h | h)
          · exact absurd h hp
          · omega
      · intro _
        exact ⟨by simpa using hp, hm⟩

/-- Spec-side notion of "power of two" (the claim's words): `x = 2^k` for
some `k`, decided via `Nat.log2`. -/
def isPowerOfTwoSpec (x : ℕ) : Bool := x ≠ 0 && 2 ^ Nat.log2 x == x

/-- Counterexample to C7 as stated: `size = 0` is not a power of two, yet
`computePrefixSum` returns `Success` with no error filled (the host's
`isPowerOfTwo` accepts 0), instead of the claimed `Error`. -/
theorem claim_C7_counterexample :
    isPowerOfTwoSpec 0 = false ∧
    computePrefixSum 256 1048576 0 = (CLResult.Success, [], none) := by
  decide

/-- Witness for the amended C7 theorem: `size = 6` fails the host's
power-of-two test, so the call errors out with the message filled and no
launches. -/
theorem claim_C7_witness :
    (computePrefixSum 256 1048576 6).1 = CLResult.Error ∧
    (computePrefixSum 256 1048576 6).2.1 = [] ∧
    (computePrefixSum 256 1048576 6).2.2 ≠ none := by
  exact (claim_C7_amended_precondition_errors 256 1048576 6).1.mpr
    (Or.inl (by decide))

/-!
## TwoLevelGrid.h: cells, counters and pair writing  (claims C5, C9, C6)
-/

/-- `struct GridData` of TwoLevelGridData.h (the `padTo64` filler is
irrelevant to the semantics and omitted). -/
structure GridData where
  resX : ℕ
  resY : ℕ
  resZ : ℕ
  stepX : ℚ
  stepY : ℚ
  stepZ : ℚ
  leafDensity : ℚ
  box : AABB
  deriving DecidableEq

/-- `struct TopLevelCell` of TwoLevelGridData.h. -/
structure TopLevelCell where
  resX : ℕ
  resY : ℕ
  resZ : ℕ
  firstLeafIdx : ℕ
  deriving DecidableEq

/-- An unsigned 3-vector (`CL_UINT3`). -/
structure UVec3 where
  x : ℕ
  y : ℕ
  z : ℕ
  deriving DecidableEq

/-- `getCellIndex` of TwoLevelGrid.h, lines 55–59. -/
def getCellIndex (ix iy iz rx ry rz : ℕ) : ℕ := iz * rx * ry + iy * rx + ix

/-- `getCellRefFromIndex` of TwoLevelGrid.h, lines 68–74. -/
def getCellRefFromIndex (idx rx ry rz : ℕ) : UVec3 :=
  let a := rx * ry
  let z := idx / a
  let b := idx - a * z
  ⟨b % rx, b / rx, z⟩

/-- `convert_uint3` (CLPortability.h): float→uint conversion, i.e. floor
towards zero.  The C conversion is undefined for negative inputs; the model
clamps them to 0 (the theorems only apply it to nonnegative coordinates). -/
def convert_uint3 (v : Vec3) : UVec3 := ⟨(⌊v.x⌋).toNat, (⌊v.y⌋).toNat, (⌊v.z⌋).toNat⟩

/-- Componentwise minimum on `CL_UINT3` (`min3` overload). -/
def min3u (a b : UVec3) : UVec3 := ⟨min a.x b.x, min a.y b.y, min a.z b.z⟩

/-- `countOverlappingCells` of TwoLevelGrid.h, lines 87–100: all in float
arithmetic — clamp the floored cell coordinates of the triangle AABB's
corners to `res − 1` per axis, and return the product of the per-axis cell
counts, converted back to `CL_UINT` (the final cast truncates; here
`Int.toNat ∘ Int.floor`, exact on the nonnegative in-grid cases the claims
quantify over).  `grid->resX - 1` is `CL_UINT` arithmetic; the ℕ-truncated
subtraction agrees with it whenever the resolution is at least 1, which the
claims' theorems assume. -/
def countOverlappingCells (v0 v1 v2 : Vec3) (grid : GridData) : ℕ :=
  let lastIndices : Vec3 :=
    ⟨((grid.resX - 1 : ℕ) : ℚ), ((grid.resY - 1 : ℕ) : ℚ), ((grid.resZ - 1 : ℕ) : ℚ)⟩
  let origin : Vec3 := ⟨grid.box.bounds0.x, grid.box.bounds0.y, grid.box.bounds0.z⟩
  let stepv : Vec3 := ⟨grid.stepX, grid.stepY, grid.stepZ⟩
  let startCells := min3 (floor3 (div3 (sub3 (min3 v0 (min3 v1 v2)) origin) stepv)) lastIndices
  let endCells := min3 (floor3 (div3 (sub3 (max3 v0 (max3 v1 v2)) origin) stepv)) lastIndices
  let cells := addScalar3 (sub3 endCells startCells) 1
  (⌊cells.x * cells.y * cells.z⌋).toNat

/-- The clamped low cell coordinates of `writeOverlappingPairs`
(TwoLevelGrid.h line 147): `MIN3(convert_uint3(FLOOR3((min−origin)/step)),
maxGridIdx)`. -/
def overlapCellLow (v0 v1 v2 : Vec3) (grid : GridData) : UVec3 :=
  min3u
    (convert_uint3 (floor3 (div3
      (sub3 (min3 v0 (min3 v1 v2))
        ⟨grid.box.bounds0.x, grid.box.bounds0.y, grid.box.bounds0.z⟩)
      ⟨grid.stepX, grid.stepY, grid.stepZ⟩)))
    ⟨grid.resX - 1, grid.resY - 1, grid.resZ - 1⟩

/-- The clamped high cell coordinates of `writeOverlappingPairs`
(TwoLevelGrid.h line 149), same formula over the AABB max corner. -/
def overlapCellHigh (v0 v1 v2 : Vec3) (grid : GridData) : UVec3 :=
  min3u
    (convert_uint3 (floor3 (div3
      (sub3 (max3 v0 (max3 v1 v2))
        ⟨grid.box.bounds0.x, grid.box.bounds0.y, grid.box.bounds0.z⟩)
      ⟨grid.stepX, grid.stepY, grid.stepZ⟩)))
    ⟨grid.resX - 1, grid.resY - 1, grid.resZ - 1⟩

/-- The inclusive loop range `for (v = a; v <= b; v++)`. -/
def rangeIncl (a b : ℕ) : List ℕ := List.range' a (b + 1 - a)

/-- The pairs emitted by the triple loop of `writeOverlappingPairs`
(TwoLevelGrid.h lines 155–162), in emission order: one
`(cell_linear_index, triangleIdx)` pair per integer cell between the
clamped low and high coordinates, z-major, then y, then x. -/
def overlapPairsList (cell cellExtents : UVec3) (rx ry rz tri : ℕ) : List (ℕ × ℕ) :=
  (rangeIncl cell.z cellExtents.z).flatMap fun z =>
    (rangeIncl cell.y cellExtents.y).flatMap fun y =>
      (rangeIncl cell.x cellExtents.x).map fun x =>
        (getCellIndex x y z rx ry rz, tri)

/-- Writing a list of values into a buffer at consecutive indices
(`pairsArray[firstPairIdx + cellCounter] = pair; cellCounter++`). -/
def writeList (arr : ℕ → ℕ × ℕ) (start : ℕ) : List (ℕ × ℕ) → (ℕ → ℕ × ℕ)
  | [] => arr
  | p :: ps => writeList (fun j => if j = start then p else arr j) (start + 1) ps

/-- `writeOverlappingPairs` of TwoLevelGrid.h, lines 136–163. -/
def writeOverlappingPairs (v0 v1 v2 : Vec3) (grid : GridData)
    (firstPairIdx triangleIdx : ℕ) (pairsArray : ℕ → ℕ × ℕ) : ℕ → ℕ × ℕ :=
  writeList pairsArray firstPairIdx
    (overlapPairsList (overlapCellLow v0 v1 v2 grid) (overlapCellHigh v0 v1 v2 grid)
      grid.resX grid.resY grid.resZ triangleIdx)

/-- `writePairs` of TwoLevelGrid.h, lines 174–190: fetch the triangle's
vertices (the byte-packed scene walk is abstracted by `fetchTriangle`),
compute `myStart = prefixSum[g] − counters[g]`, and delegate to
`writeOverlappingPairs`.  The `CL_UINT` subtraction is modelled by
ℕ-truncated subtraction, which agrees with it in the non-wrapping case
`counters[g] ≤ prefixSum[g]` guaranteed by the inclusive-scan convention. -/
def writePairs (fetchTriangle : ℕ → Vec3 × Vec3 × Vec3) (triangleIndex : ℕ)
    (grid : GridData) (prefixSum counters : ℕ → ℕ)
    (pairs : ℕ → ℕ × ℕ) : ℕ → ℕ × ℕ :=
  let v := fetchTriangle triangleIndex
  let myStart := prefixSum triangleIndex - counters triangleIndex
  writeOverlappingPairs v.1 v.2.1 v.2.2 grid myStart triangleIndex pairs

theorem writeList_lt (l : List (ℕ × ℕ)) :
    ∀ (arr : ℕ → ℕ × ℕ) (start k : ℕ), k < start → writeList arr start l k = arr k := by
  induction l with
  | nil => intro arr start k _; rfl
  | cons p ps ih =>
    intro arr start k hk
    rw [writeList, ih _ _ _ (Nat.lt_succ_of_lt hk)]
    rw [if_neg (Nat.ne_of_lt hk)]

theorem writeList_ge (l : List (ℕ × ℕ)) :
    ∀ (arr : ℕ → ℕ × ℕ) (start k : ℕ), start + l.length ≤ k →
      writeList arr start l k = arr k := by
  induction l with
  | nil => intro arr start k _; rfl
  | cons p ps ih =>
    intro arr start k hk
    rw [List.length_cons] at hk
    rw [writeList, ih _ _ _ (by omega)]
    rw [if_neg (by omega)]

theorem writeList_get (l : List (ℕ × ℕ)) :
    ∀ (arr : ℕ → ℕ × ℕ) (start k : ℕ) (hk : k < l.length),
      writeList arr start l (start + k) = l.get ⟨k, hk⟩ := by
  induction l with
  | nil => intro arr start k hk; simp at hk
  | cons p ps ih =>
    intro arr start k hk
    match k with
    | 0 =>
      rw [writeList]
      have h0 := writeList_lt ps (fun j => if j = start then p else arr j)
        (start + 1) start (by omega)
      simpa using h0
    | k + 1 =>
      rw [writeList]
      have : start + (k + 1) = (start + 1) + k := by omega
      rw [this, ih _ (start + 1) k (by simpa using hk)]
      simp

theorem mem_rangeIncl (a b m : ℕ) : m ∈ rangeIncl a b ↔ a ≤ m ∧ m ≤ b := by
  rw [rangeIncl, List.mem_range'_1]
  omega

/-- C5: for every triangle, `writePairs` writes exactly the
`(cell_linear_index, g)` pairs of the integer cells of the triangle's AABB
in cell coordinates, clamped to the grid resolution, consecutively starting
at index `prefixSum[g] − counters[g]`, and touches nothing outside that
window.  (`hcnt` is the non-wrap condition of the inclusive-scan
convention under which the `CL_UINT` start index is the ℕ subtraction.) -/
theorem claim_C5_write_pairs_placement (fetchTriangle : ℕ → Vec3 × Vec3 × Vec3)
    (g : ℕ) (grid : GridData) (prefixSum counters : ℕ → ℕ) (pairs : ℕ → ℕ × ℕ)
    (hcnt : counters g ≤ prefixSum g) :
    (∀ k (hk : k < (overlapPairsList
        (overlapCellLow (fetchTriangle g).1 (fetchTriangle g).2.1 (fetchTriangle g).2.2 grid)
        (overlapCellHigh (fetchTriangle g).1 (fetchTriangle g).2.1 (fetchTriangle g).2.2 grid)
        grid.resX grid.resY grid.resZ g).length),
      writePairs fetchTriangle g grid prefixSum counters pairs
          (prefixSum g - counters g + k) =
        (overlapPairsList
          (overlapCellLow (fetchTriangle g).1 (fetchTriangle g).2.1 (fetchTriangle g).2.2 grid)
          (overlapCellHigh (fetchTriangle g).1 (fetchTriangle g).2.1 (fetchTriangle g).2.2 grid)
          grid.resX grid.resY grid.resZ g).get ⟨k, hk⟩) ∧
    (∀ j, j < prefixSum g - counters g ∨
          prefixSum g - counters g + (overlapPairsList
            (overlapCellLow (fetchTriangle g).1 (fetchTriangle g).2.1 (fetchTriangle g).2.2 grid)
            (overlapCellHigh (fetchTriangle g).1 (fetchTriangle g).2.1 (fetchTriangle g).2.2 grid)
            grid.resX grid.resY grid.resZ g).length ≤ j →
      writePairs fetchTriangle g grid prefixSum counters pairs j = pairs j) ∧
    (∀ p, p ∈ overlapPairsList
        (overlapCellLow (fetchTriangle g).1 (fetchTriangle g).2.1 (fetchTriangle g).2.2 grid)
        (overlapCellHigh (fetchTriangle g).1 (fetchTriangle g).2.1 (fetchTriangle g).2.2 grid)
        grid.resX grid.resY grid.resZ g ↔
      ∃ x y z,
        ((overlapCellLow (fetchTriangle g).1 (fetchTriangle g).2.1 (fetchTriangle g).2.2 grid).x ≤ x ∧
          x ≤ (overlapCellHigh (fetchTriangle g).1 (fetchTriangle g).2.1 (fetchTriangle g).2.2 grid).x) ∧
        ((overlapCellLow (fetchTriangle g).1 (fetchTriangle g).2.1 (fetchTriangle g).2.2 grid).y ≤ y ∧
          y ≤ (overlapCellHigh (fetchTriangle g).1 (fetchTriangle g).2.1 (fetchTriangle g).2.2 grid).y) ∧
        ((overlapCellLow (fetchTriangle g).1 (fetchTriangle g).2.1 (fetchTriangle g).2.2 grid).z ≤ z ∧
          z ≤ (overlapCellHigh (fetchTriangle g).1 (fetchTriangle g).2.1 (fetchTriangle g).2.2 grid).z) ∧
        p = (getCellIndex x y z grid.resX grid.resY grid.resZ, g)) := by
  refine ⟨?_, ?_, ?_⟩
  · intro k hk
    exact writeList_get _ _ _ _ hk
  · intro j hj
    rcases hj with hj | hj
    · exact writeList_lt _ _ _ _ hj
    · exact writeList_ge _ _ _ _ hj
  · intro p
    simp only [overlapPairsList, List.mem_flatMap, List.mem_map, mem_rangeIncl]
    constructor
    · rintro ⟨z, hz, y, hy, x, hx, rfl⟩
      exact ⟨x, y, z, hx, hy, hz, rfl⟩
    · rintro ⟨x, y, z, hx, hy, hz, rfl⟩
      exact ⟨z, hz, y, hy, x, hx, rfl⟩

/-- Witness for C5 on a unit grid with one triangle spanning cell (0,0,0):
the single pair `(0, 0)` is written at index `prefixSum[0] − counters[0] =
3`, and the slot before it is untouched. -/
theorem claim_C5_witness :
    writePairs (fun _ => (⟨0, 0, 0⟩, ⟨1, 0, 0⟩, ⟨0, 1, 0⟩)) 0
        ⟨1, 1, 1, 1, 1, 1, 2, ⟨⟨0, 0, 0, 0⟩, ⟨1, 1, 1, 0⟩⟩⟩
        (fun _ => 4) (fun _ => 1) (fun _ => (9, 9)) (4 - 1 + 0) =
      (overlapPairsList
        (overlapCellLow ⟨0, 0, 0⟩ ⟨1, 0, 0⟩ ⟨0, 1, 0⟩
          ⟨1, 1, 1, 1, 1, 1, 2, ⟨⟨0, 0, 0, 0⟩, ⟨1, 1, 1, 0⟩⟩⟩)
        (overlapCellHigh ⟨0, 0, 0⟩ ⟨1, 0, 0⟩ ⟨0, 1, 0⟩
          ⟨1, 1, 1, 1, 1, 1, 2, ⟨⟨0, 0, 0, 0⟩, ⟨1, 1, 1, 0⟩⟩⟩)
        1 1 1 0).get ⟨0, by norm_num [overlapPairsList, overlapCellLow,
          overlapCellHigh, rangeIncl, min3u, convert_uint3, floor3, div3, sub3,
          min3, max3, getCellIndex]⟩ := by
  exact (claim_C5_write_pairs_placement (fun _ => (⟨0, 0, 0⟩, ⟨1, 0, 0⟩, ⟨0, 1, 0⟩)) 0
    ⟨1, 1, 1, 1, 1, 1, 2, ⟨⟨0, 0, 0, 0⟩, ⟨1, 1, 1, 0⟩⟩⟩
    (fun _ => 4) (fun _ => 1) (fun _ => (9, 9)) (by norm_num)).1 0 _

theorem sum_map_const {α : Type} (l : List α) (c : ℕ) :
    (l.map fun _ => c).sum = l.length * c := by
  induction l with
  | nil => simp
  | cons a t ih => simp [ih]; ring

theorem overlapPairsList_length (cell ext : UVec3) (rx ry rz tri : ℕ) :
    (overlapPairsList cell ext rx ry rz tri).length =
      (ext.z + 1 - cell.z) * ((ext.y + 1 - cell.y) * (ext.x + 1 - cell.x)) := by
  rw [overlapPairsList, List.length_flatMap]
  have hinner : ∀ z : ℕ,
      (((rangeIncl cell.y ext.y).flatMap fun y =>
        (rangeIncl cell.x ext.x).map fun x =>
          (getCellIndex x y z rx ry rz, tri))).length
      = (ext.y + 1 - cell.y) * (ext.x + 1 - cell.x) := by
    intro z
    rw [List.length_flatMap]
    have hmap : ((rangeIncl cell.y ext.y).map (List.length ∘ fun y =>
        (rangeIncl cell.x ext.x).map fun x => (getCellIndex x y z rx ry rz, tri)))
        = (rangeIncl cell.y ext.y).map fun _ => ext.x + 1 - cell.x := by
      refine List.map_congr_left fun y _ => ?_
      simp [rangeIncl]
    rw [hmap, sum_map_const, rangeIncl, List.length_range']
  have hmap2 : ((rangeIncl cell.z ext.z).map (List.length ∘ fun z =>
      (rangeIncl cell.y ext.y).flatMap fun y =>
        (rangeIncl cell.x ext.x).map fun x => (getCellIndex x y z rx ry rz, tri)))
      = (rangeIncl cell.z ext.z).map
          fun _ => (ext.y + 1 - cell.y) * (ext.x + 1 - cell.x) := by
    refine List.map_congr_left fun z _ => ?_
    simpa using hinner z
  rw [hmap2, sum_map_const, rangeIncl, List.length_range']

theorem getCellIndex_lt (x y z rx ry rz : ℕ)
    (hx : x < rx) (hy : y < ry) (hz : z < rz) :
    getCellIndex x y z rx ry rz < rx * ry * rz := by
  unfold getCellIndex
  have h1 : z * rx * ry + y * rx + x + 1 ≤ rx * ry * rz := by
    calc z * rx * ry + y * rx + x + 1
        ≤ z * rx * ry + y * rx + rx := by omega
      _ = z * rx * ry + (y + 1) * rx := by ring
      _ ≤ z * rx * ry + ry * rx := Nat.add_le_add_left (Nat.mul_le_mul_right _ hy) _
      _ = (z + 1) * (rx * ry) := by ring
      _ ≤ rz * (rx * ry) := Nat.mul_le_mul_right _ hz
      _ = rx * ry * rz := by ring
  omega

/-- One axis of the count/write agreement: the float cell-count expression
of `countOverlappingCells` equals, as an exact rational, the ℕ cell count
of the clamped integer coordinates used by `writeOverlappingPairs`. -/
theorem axis_count_eq (m M o s : ℚ) (res : ℕ) (hs : 0 < s)
    (ho : o ≤ m) (hmM : m ≤ M) :
    min ((⌊(M - o) / s⌋ : ℤ) : ℚ) ((res - 1 : ℕ) : ℚ)
      - min ((⌊(m - o) / s⌋ : ℤ) : ℚ) ((res - 1 : ℕ) : ℚ) + 1
    = ((min (⌊(M - o) / s⌋.toNat) (res - 1) + 1
        - min (⌊(m - o) / s⌋.toNat) (res - 1) : ℕ) : ℚ) := by
  have ha0 : 0 ≤ ⌊(m - o) / s⌋ :=
    Int.floor_nonneg.mpr (div_nonneg (by linarith) hs.le)
  have hb0 : 0 ≤ ⌊(M - o) / s⌋ :=
    Int.floor_nonneg.mpr (div_nonneg (by linarith) hs.le)
  have hab : ⌊(m - o) / s⌋ ≤ ⌊(M - o) / s⌋ :=
    Int.floor_le_floor ((div_le_div_right hs).mpr (by linarith))
  have hminle : min (⌊(m - o) / s⌋.toNat) (res - 1)
      ≤ min (⌊(M - o) / s⌋.toNat) (res - 1) :=
    min_le_min (Int.toNat_le_toNat hab) le_rfl
  have e1 : min ((⌊(m - o) / s⌋ : ℤ) : ℚ) ((res - 1 : ℕ) : ℚ)
      = ((min (⌊(m - o) / s⌋.toNat) (res - 1) : ℕ) : ℚ) := by
    rw [← Int.toNat_of_nonneg ha0, Nat.cast_min]
    push_cast
    rfl
  have e2 : min ((⌊(M - o) / s⌋ : ℤ) : ℚ) ((res - 1 : ℕ) : ℚ)
      = ((min (⌊(M - o) / s⌋.toNat) (res - 1) : ℕ) : ℚ) := by
    rw [← Int.toNat_of_nonneg hb0, Nat.cast_min]
    push_cast
    rfl
  rw [e1, e2, Nat.cast_sub (by omega), Nat.cast_add]
  push_cast
  ring

/-- C9 (implicit count/write agreement): for a triangle whose AABB does not
fall below the grid box origin, on a grid with positive steps and
resolution at least 1 per axis, the pair count returned by
`countOverlappingCells` equals the number of pairs actually emitted by
`writeOverlappingPairs`, and every emitted pair's cell index is strictly
below `resX·resY·resZ`. -/
theorem claim_C9_count_write_agreement (v0 v1 v2 : Vec3) (grid : GridData) (tri : ℕ)
    (hrx : 1 ≤ grid.resX) (hry : 1 ≤ grid.resY) (hrz : 1 ≤ grid.resZ)
    (hsx : 0 < grid.stepX) (hsy : 0 < grid.stepY) (hsz : 0 < grid.stepZ)
    (hox : grid.box.bounds0.x ≤ min v0.x (min v1.x v2.x))
    (hoy : grid.box.bounds0.y ≤ min v0.y (min v1.y v2.y))
    (hoz : grid.box.bounds0.z ≤ min v0.z (min v1.z v2.z)) :
    countOverlappingCells v0 v1 v2 grid =
      (overlapPairsList (overlapCellLow v0 v1 v2 grid) (overlapCellHigh v0 v1 v2 grid)
        grid.resX grid.resY grid.resZ tri).length ∧
    ∀ p ∈ overlapPairsList (overlapCellLow v0 v1 v2 grid) (overlapCellHigh v0 v1 v2 grid)
        grid.resX grid.resY grid.resZ tri,
      p.1 < grid.resX * grid.resY * grid.resZ := by
  constructor
  · have hmx : min v0.x (min v1.x v2.x) ≤ max v0.x (max v1.x v2.x) :=
      le_trans (min_le_left _ _) (le_max_left _ _)
    have hmy : min v0.y (min v1.y v2.y) ≤ max v0.y (max v1.y v2.y) :=
      le_trans (min_le_left _ _) (le_max_left _ _)
    have hmz : min v0.z (min v1.z v2.z) ≤ max v0.z (max v1.z v2.z) :=
      le_trans (min_le_left _ _) (le_max_left _ _)
    have ex := axis_count_eq (min v0.x (min v1.x v2.x)) (max v0.x (max v1.x v2.x))
      grid.box.bounds0.x grid.stepX grid.resX hsx hox hmx
    have ey := axis_count_eq (min v0.y (min v1.y v2.y)) (max v0.y (max v1.y v2.y))
      grid.box.bounds0.y grid.stepY grid.resY hsy hoy hmy
    have ez := axis_count_eq (min v0.z (min v1.z v2.z)) (max v0.z (max v1.z v2.z))
      grid.box.bounds0.z grid.stepZ grid.resZ hsz hoz hmz
    rw [overlapPairsList_length]
    simp only [countOverlappingCells, overlapCellLow, overlapCellHigh, min3u,
      convert_uint3, floor3, div3, sub3, min3, max3, addScalar3]
    rw [ex, ey, ez, ← Nat.cast_mul, ← Nat.cast_mul, Int.floor_natCast,
      Int.toNat_natCast]
    ac_rfl
  · intro p hp
    rw [overlapPairsList] at hp
    simp only [List.mem_flatMap, List.mem_map, mem_rangeIncl] at hp
    obtain ⟨z, hz, y, hy, x, hx, rfl⟩ := hp
    have hxlt : x < grid.resX := by
      have h1 : (overlapCellHigh v0 v1 v2 grid).x ≤ grid.resX - 1 := by
        simp only [overlapCellHigh, min3u]
        exact min_le_right _ _
      omega
    have hylt : y < grid.resY := by
      have h1 : (overlapCellHigh v0 v1 v2 grid).y ≤ grid.resY - 1 := by
        simp only [overlapCellHigh, min3u]
        exact min_le_right _ _
      omega
    have hzlt : z < grid.resZ := by
      have h1 : (overlapCellHigh v0 v1 v2 grid).z ≤ grid.resZ - 1 := by
        simp only [overlapCellHigh, min3u]
        exact min_le_right _ _
      omega
    exact getCellIndex_lt x y z grid.resX grid.resY grid.resZ hxlt hylt hzlt

/-- Witness for C9 on the unit grid with the triangle of the C5 witness:
the counter agrees with the single written pair and its cell index 0 is
below the cell count 1. -/
theorem claim_C9_witness :
    countOverlappingCells ⟨0, 0, 0⟩ ⟨1, 0, 0⟩ ⟨0, 1, 0⟩
        ⟨1, 1, 1, 1, 1, 1, 2, ⟨⟨0, 0, 0, 0⟩, ⟨1, 1, 1, 0⟩⟩⟩ =
      (overlapPairsList
        (overlapCellLow ⟨0, 0, 0⟩ ⟨1, 0, 0⟩ ⟨0, 1, 0⟩
          ⟨1, 1, 1, 1, 1, 1, 2, ⟨⟨0, 0, 0, 0⟩, ⟨1, 1, 1, 0⟩⟩⟩)
        (overlapCellHigh ⟨0, 0, 0⟩ ⟨1, 0, 0⟩ ⟨0, 1, 0⟩
          ⟨1, 1, 1, 1, 1, 1, 2, ⟨⟨0, 0, 0, 0⟩, ⟨1, 1, 1, 0⟩⟩⟩)
        1 1 1 0).length := by
  exact (claim_C9_count_write_agreement ⟨0, 0, 0⟩ ⟨1, 0, 0⟩ ⟨0, 1, 0⟩
    ⟨1, 1, 1, 1, 1, 1, 2, ⟨⟨0, 0, 0, 0⟩, ⟨1, 1, 1, 0⟩⟩⟩ 0
    (by norm_num) (by norm_num) (by norm_num)
    (by norm_num) (by norm_num) (by norm_num)
    (by norm_num) (by norm_num) (by norm_num)).1

/-!
## AABB.h / TwoLevelGrid.h: SAT triangle–box test and leaf pairs  (claim C6)
-/

/-- The `sign(n)` macro of CLPortability.h (host layer): `n >= 0 ? 1 : -1`. -/
def sign (n : ℚ) : ℚ := if n ≥ 0 then 1 else -1

/-- `planeBoxOverlap` of AABB.h, lines 430–449. -/
def planeBoxOverlap (normal vert maxbox : Vec3) : Bool :=
  let vmin : Vec3 := ⟨-sign normal.x * maxbox.x - vert.x,
                      -sign normal.y * maxbox.y - vert.y,
                      -sign normal.z * maxbox.z - vert.z⟩
  let vmax : Vec3 := ⟨sign normal.x * maxbox.x - vert.x,
                      sign normal.y * maxbox.y - vert.y,
                      sign normal.z * maxbox.z - vert.z⟩
  (if dot normal vmin ≤ 0 then true else false) &&
  (if dot normal vmax ≥ 0 then true else false)

/-- The common tail of the `AXISTEST_*` macros of AABB.h: both projections
within `[-rad, rad]`. -/
def axisTest (p q rad : ℚ) : Bool :=
  if min p q ≤ rad ∧ max p q ≥ -rad then true else false

/-- `AABBTriangleIntersect` of AABB.h, lines 460–540: translate the
vertices by `boxcenter − vᵢ` (written `w₀,w₁,w₂`; the source reassigns
`v0,v1,v2` in place), run the nine edge-cross-axis `AXISTEST_*` macros in
source order (edge `v1−v0`: X01, Y02, Z12; edge `v2−v1`: X01, Y02, Z0;
edge `v0−v2`: X2, Y1, Z12), the three axis-interval tests, and the
triangle-plane test on `cross(v1−v0, v2−v1)`. -/
def AABBTriangleIntersect (boxcenter boxhalfsize v0 v1 v2 : Vec3) : Bool :=
  let w0 := sub3 boxcenter v0
  let w1 := sub3 boxcenter v1
  let w2 := sub3 boxcenter v2
  let e1 := sub3 w1 w0
  let t1 := axisTest (e1.z * w0.y - e1.y * w0.z) (e1.z * w2.y - e1.y * w2.z)
      (|e1.z| * boxhalfsize.y + |e1.y| * boxhalfsize.z)
  let t2 := axisTest (-e1.z * w0.x + e1.x * w0.z) (-e1.z * w2.x + e1.x * w2.z)
      (|e1.z| * boxhalfsize.x + |e1.x| * boxhalfsize.z)
  let t3 := axisTest (e1.y * w1.x - e1.x * w1.y) (e1.y * w2.x - e1.x * w2.y)
      (|e1.y| * boxhalfsize.x + |e1.x| * boxhalfsize.y)
  let e2 := sub3 w2 w1
  let t4 := axisTest (e2.z * w0.y - e2.y * w0.z) (e2.z * w2.y - e2.y * w2.z)
      (|e2.z| * boxhalfsize.y + |e2.y| * boxhalfsize.z)
  let t5 := axisTest (-e2.z * w0.x + e2.x * w0.z) (-e2.z * w2.x + e2.x * w2.z)
      (|e2.z| * boxhalfsize.x + |e2.x| * boxhalfsize.z)
  let t6 := axisTest (e2.y * w0.x - e2.x * w0.y) (e2.y * w1.x - e2.x * w1.y)
      (|e2.y| * boxhalfsize.x + |e2.x| * boxhalfsize.y)
  let e3 := sub3 w0 w2
  let t7 := axisTest (e3.z * w0.y - e3.y * w0.z) (e3.z * w1.y - e3.y * w1.z)
      (|e3.z| * boxhalfsize.y + |e3.y| * boxhalfsize.z)
  let t8 := axisTest (-e3.z * w0.x + e3.x * w0.z) (-e3.z * w1.x + e3.x * w1.z)
      (|e3.z| * boxhalfsize.x + |e3.x| * boxhalfsize.z)
  let t9 := axisTest (e3.y * w1.x - e3.x * w1.y) (e3.y * w2.x - e3.x * w2.y)
      (|e3.y| * boxhalfsize.x + |e3.x| * boxhalfsize.y)
  let bX := if min w0.x (min w1.x w2.x) ≤ boxhalfsize.x ∧
               max w0.x (max w1.x w2.x) ≥ -boxhalfsize.x then true else false
  let bY := if min w0.y (min w1.y w2.y) ≤ boxhalfsize.y ∧
               max w0.y (max w1.y w2.y) ≥ -boxhalfsize.y then true else false
  let bZ := if min w0.z (min w1.z w2.z) ≤ boxhalfsize.z ∧
               max w0.z (max w1.z w2.z) ≥ -boxhalfsize.z then true else false
  let normal := cross (sub3 w1 w0) (sub3 w2 w1)
  t1 && t2 && t3 && t4 && t5 && t6 && t7 && t8 && t9 && bX && bY && bZ &&
    planeBoxOverlap normal w0 boxhalfsize

/-- The leaf-cell half size of `writeOverlappingLeafPairs`
(TwoLevelGrid.h lines 337–350): `leafStep · 0.5` per axis, with
`leafStep = grid.step / topLevelCell.res`. -/
def leafCellHalfSize (grid : GridData) (tlCell : TopLevelCell) : Vec3 :=
  ⟨grid.stepX / (tlCell.resX : ℚ) * (1/2),
   grid.stepY / (tlCell.resY : ℚ) * (1/2),
   grid.stepZ / (tlCell.resZ : ℚ) * (1/2)⟩

/-- The leaf-cell center of `writeOverlappingLeafPairs` (TwoLevelGrid.h
lines 340–357): the top-level cell's base position (from
`getCellRefFromIndex` on the pair's cell index and the grid step), plus
`(x,y,z)·leafStep`, plus the half size. -/
def leafCellCenter (grid : GridData) (tlCell : TopLevelCell) (tlIdx x y z : ℕ) : Vec3 :=
  let tlc := getCellRefFromIndex tlIdx grid.resX grid.resY grid.resZ
  ⟨grid.box.bounds0.x + (tlc.x : ℚ) * grid.stepX
     + (x : ℚ) * (grid.stepX / (tlCell.resX : ℚ)) + (leafCellHalfSize grid tlCell).x,
   grid.box.bounds0.y + (tlc.y : ℚ) * grid.stepY
     + (y : ℚ) * (grid.stepY / (tlCell.resY : ℚ)) + (leafCellHalfSize grid tlCell).y,
   grid.box.bounds0.z + (tlc.z : ℚ) * grid.stepZ
     + (z : ℚ) * (grid.stepZ / (tlCell.resZ : ℚ)) + (leafCellHalfSize grid tlCell).z⟩

/-- The pairs emitted by the triple loop of `writeOverlappingLeafPairs`
(TwoLevelGrid.h lines 351–364), in emission order: a
`(leaf_linear_index + firstLeafIdx, triangle)` pair for exactly those leaf
cells passing `AABBTriangleIntersect`. -/
def leafPairsList (v0 v1 v2 : Vec3) (grid : GridData) (tlCell : TopLevelCell)
    (topLevelPair : ℕ × ℕ) : List (ℕ × ℕ) :=
  (List.range tlCell.resZ).flatMap fun z =>
    (List.range tlCell.resY).flatMap fun y =>
      (List.range tlCell.resX).filterMap fun x =>
        if AABBTriangleIntersect (leafCellCenter grid tlCell topLevelPair.1 x y z)
            (leafCellHalfSize grid tlCell) v0 v1 v2 then
          some (getCellIndex x y z tlCell.resX tlCell.resY tlCell.resZ
                  + tlCell.firstLeafIdx,
                topLevelPair.2)
        else none

/-- `writeOverlappingLeafPairs` of TwoLevelGrid.h, lines 330–365: the
emitted pairs are stored consecutively from `startIndex`. -/
def writeOverlappingLeafPairs (v0 v1 v2 : Vec3) (grid : GridData)
    (topLevelCell : TopLevelCell) (topLevelPair : ℕ × ℕ) (startIndex : ℕ)
    (pairs : ℕ → ℕ × ℕ) : ℕ → ℕ × ℕ :=
  writeList pairs startIndex (leafPairsList v0 v1 v2 grid topLevelCell topLevelPair)

/-- C6: every pair written into the leaf-pair array by
`writeOverlappingLeafPairs` is one of the emitted pairs, and every emitted
pair passes the separating-axis test `AABBTriangleIntersect` for the leaf
cell whose center and half size are derived from the top-level cell's base
position, leaf resolution and grid step — with key
`leaf_linear_index + firstLeafIdx` and the pair's triangle as value. -/
theorem claim_C6_leaf_pair_precision (v0 v1 v2 : Vec3) (grid : GridData)
    (tlCell : TopLevelCell) (tlPair : ℕ × ℕ) (startIndex : ℕ) (pairs : ℕ → ℕ × ℕ) :
    (∀ k (hk : k < (leafPairsList v0 v1 v2 grid tlCell tlPair).length),
      writeOverlappingLeafPairs v0 v1 v2 grid tlCell tlPair startIndex pairs
          (startIndex + k)
        ∈ leafPairsList v0 v1 v2 grid tlCell tlPair) ∧
    (∀ p ∈ leafPairsList v0 v1 v2 grid tlCell tlPair,
      ∃ x y z, x < tlCell.resX ∧ y < tlCell.resY ∧ z < tlCell.resZ ∧
        AABBTriangleIntersect (leafCellCenter grid tlCell tlPair.1 x y z)
          (leafCellHalfSize grid tlCell) v0 v1 v2 = true ∧
        p = (getCellIndex x y z tlCell.resX tlCell.resY tlCell.resZ
               + tlCell.firstLeafIdx, tlPair.2)) := by
  constructor
  · intro k hk
    rw [writeOverlappingLeafPairs, writeList_get _ _ _ _ hk]
    exact List.get_mem _ _ _
  · intro p hp
    rw [leafPairsList] at hp
    simp only [List.mem_flatMap, List.mem_filterMap, List.mem_range] at hp
    obtain ⟨z, hz, y, hy, x, hx, hfx⟩ := hp
    split_ifs at hfx with hSAT
    exact ⟨x, y, z, hx, hy, hz, hSAT, (Option.some_inj.mp hfx).symm⟩

set_option maxHeartbeats 2000000 in
/-- Witness for C6: on the unit grid (one top cell, one leaf cell with
`firstLeafIdx = 7`), the triangle (0,0,0),(1,0,0),(0,1,0) passes the SAT
test against the leaf box centered at (1/2,1/2,1/2), so the written slot at
`startIndex = 5` holds an emitted pair. -/
theorem claim_C6_witness :
    writeOverlappingLeafPairs ⟨0, 0, 0⟩ ⟨1, 0, 0⟩ ⟨0, 1, 0⟩
        ⟨1, 1, 1, 1, 1, 1, 2, ⟨⟨0, 0, 0, 0⟩, ⟨1, 1, 1, 0⟩⟩⟩
        ⟨1, 1, 1, 7⟩ (0, 3) 5 (fun _ => (0, 0)) (5 + 0)
      ∈ leafPairsList ⟨0, 0, 0⟩ ⟨1, 0, 0⟩ ⟨0, 1, 0⟩
          ⟨1, 1, 1, 1, 1, 1, 2, ⟨⟨0, 0, 0, 0⟩, ⟨1, 1, 1, 0⟩⟩⟩ ⟨1, 1, 1, 7⟩ (0, 3) := by
  refine (claim_C6_leaf_pair_precision ⟨0, 0, 0⟩ ⟨1, 0, 0⟩ ⟨0, 1, 0⟩
    ⟨1, 1, 1, 1, 1, 1, 2, ⟨⟨0, 0, 0, 0⟩, ⟨1, 1, 1, 0⟩⟩⟩ ⟨1, 1, 1, 7⟩ (0, 3) 5
    (fun _ => (0, 0))).1 0 ?_
  norm_num [leafPairsList, List.range_succ, List.filterMap_cons,
    AABBTriangleIntersect, axisTest, planeBoxOverlap, leafCellCenter,
    leafCellHalfSize, getCellRefFromIndex, getCellIndex, sign, cross, dot, sub3]

end OpenCLRT
